import Mathlib

/-!
Verification development for the armiarma crawler sources.

The definitions below are shallow embeddings of the Go sources:
  - src/metrics/peerstore.go      (PeerStore and its per-peer event operations)
  - src/gossipsub/gossipsub.go    (MsgIDFunction; the Filecoin crawler worker loop,
                                   discoveredPeers feed, blacklist)
Machine integers are modelled as Nat with explicit reduction mod 2^32 where the
source relies on 32-bit wrap-around (SHA-256); fallible operations return an
Except value paired with the possibly updated store, matching Go methods that
return an error while mutating their receiver.
-/

/-! ## Peer records (metrics/peerstore.go)

Only the fields touched by the operations under study are modelled; the record
carries them with the source's names. -/

structure Peer where
  PeerId : String := ""
  Attempts : Nat := 0
  Attempted : Bool := false
  Succeed : Bool := false
  Error : String := ""
  MetadataRequest : Bool := false
  MetadataSucceed : Bool := false
  NegativeConnAttempts : List String := []
deriving DecidableEq, Repr

/-- The peer store contents: an association list from peer id to record,
modelling the `PeerStoreStorage` map (`Load` / `Store` / `Range`). -/
abbrev PStore : Type := List (String × Peer)

/-- Storage `Load`: first binding of the key, if any. -/
def psLoad (s : PStore) (k : String) : Option Peer :=
  (List.find? (fun kv => kv.1 = k) s).map Prod.snd

/-- Storage `Store`: overwrite the binding of the key, or insert a new one. -/
def psStore (s : PStore) (k : String) (v : Peer) : PStore :=
  match s with
  | [] => [(k, v)]
  | kv :: rest => if kv.1 = k then (k, v) :: rest else kv :: psStore rest k v

/-- GetPeerData (peerstore.go lines 103-109): load, or an error when absent. -/
def GetPeerData (s : PStore) (peerId : String) : Except String Peer :=
  match psLoad s peerId with
  | none => Except.error ("could not find peer in peerstore: " ++ peerId)
  | some p => Except.ok p

/-- The record update performed by AddNewNegConnectionAttempt before the
ErrorHandling decorator runs: increment Attempts; on the first attempt only,
set Attempted and store the classified error.  `filterError` stands for the
external classifier `utils.FilterError`. -/
def negUpdate (filterError : String → String) (rec_err : String) (p : Peer) : Peer :=
  let p1 := { p with Attempts := p.Attempts + 1 }
  if !p1.Attempted then { p1 with Attempted := true, Error := filterError rec_err } else p1

/-- AddNewNegConnectionAttempt (peerstore.go lines 113-131).  `fn` is the
ErrorHandling decorator the caller supplies (pruneconnect.go, outside these
sources); it is applied to the updated record before the store. -/
def AddNewNegConnectionAttempt (filterError : String → String) (fn : Peer → Peer)
    (s : PStore) (id rec_err : String) : Except String Unit × PStore :=
  match psLoad s id with
  | none => (Except.error ("Not peer found with that ID " ++ id), s)
  | some p =>
      let p3 := fn (negUpdate filterError rec_err p)
      (Except.ok (), psStore s p3.PeerId p3)

/-- Modelled from the spec: `Peer.AddPositiveConnAttempt` is not among the
sources; per the call-site comment ("clean the Negative connection Attempt
list") and the data model of the spec (negative/positive attempt log), it
clears the negative-attempt log and touches nothing else. -/
def AddPositiveConnAttempt (p : Peer) : Peer :=
  { p with NegativeConnAttempts := [] }

/-- The record update performed by AddNewPosConnectionAttempt: increment
Attempts, set Attempted, mark Succeed, reset the stored error, clean the
negative-attempt log. -/
def posUpdate (p : Peer) : Peer :=
  let p1 := { p with Attempts := p.Attempts + 1 }
  let p2 := if !p1.Attempted then { p1 with Attempted := true } else p1
  AddPositiveConnAttempt { p2 with Succeed := true, Error := "None" }

/-- AddNewPosConnectionAttempt (peerstore.go lines 135-153). -/
def AddNewPosConnectionAttempt (s : PStore) (id : String) : Except String Unit × PStore :=
  match psLoad s id with
  | none => (Except.error ("Not peer found with that ID " ++ id), s)
  | some p =>
      let p3 := posUpdate p
      (Except.ok (), psStore s p3.PeerId p3)

/-- ConnectionEvent (peerstore.go lines 156-164).  `connFn direction` stands
for the Peer method `peer.ConnectionEvent(direction, time.Now())`, which lives
outside these sources; the not-found path never reaches it. -/
def ConnectionEvent (connFn : String → Peer → Peer) (s : PStore)
    (peerId direction : String) : Except String Unit × PStore :=
  match psLoad s peerId with
  | none => (Except.error ("could not add connection event, peer is not in the list: " ++ peerId), s)
  | some p =>
      let p2 := connFn direction p
      (Except.ok (), psStore s p2.PeerId p2)

/-- DisconnectionEvent (peerstore.go lines 167-175), with the external Peer
method abstracted as `discFn`. -/
def DisconnectionEvent (discFn : Peer → Peer) (s : PStore)
    (peerId : String) : Except String Unit × PStore :=
  match psLoad s peerId with
  | none => (Except.error ("could not add disconnection event, peer is not in the list: " ++ peerId), s)
  | some p =>
      let p2 := discFn p
      (Except.ok (), psStore s p2.PeerId p2)

/-- MetadataEvent (peerstore.go lines 178-189): mark the request, and on
success the success flag. -/
def MetadataEvent (s : PStore) (peerId : String) (success : Bool) :
    Except String Unit × PStore :=
  match psLoad s peerId with
  | none => (Except.error ("could not add metadata event, peer is not in the list: " ++ peerId), s)
  | some p =>
      let p1 := { p with MetadataRequest := true }
      let p2 := if success then { p1 with MetadataSucceed := true } else p1
      (Except.ok (), psStore s p2.PeerId p2)

/-- ConnectionAttemptEvent (peerstore.go lines 193-201), with the external
Peer method `peer.ConnectionAttemptEvent(succeed, conErr)` abstracted as
`caFn`. -/
def ConnectionAttemptEvent (caFn : Bool → String → Peer → Peer) (s : PStore)
    (peerId : String) (succeed : Bool) (conErr : String) : Except String Unit × PStore :=
  match psLoad s peerId with
  | none => (Except.error ("could not add connection attempt, peer is not in the list: " ++ peerId), s)
  | some p =>
      let p2 := caFn succeed conErr p
      (Except.ok (), psStore s p2.PeerId p2)

/-- MessageEvent (peerstore.go lines 205-213), with the external Peer method
`peer.MessageEvent(topicName, time.Now())` abstracted as `msgFn`. -/
def MessageEvent (msgFn : String → Peer → Peer) (s : PStore)
    (peerId topicName : String) : Except String Unit × PStore :=
  match psLoad s peerId with
  | none => (Except.error ("could not add message event, peer is not in the list: " ++ peerId), s)
  | some p =>
      let p2 := msgFn topicName p
      (Except.ok (), psStore s p2.PeerId p2)

/-! ## Sequences of connection attempts (for the attempt-counter invariant) -/

/-- One connection-attempt operation on a peer record: a positive attempt, or
a negative attempt carrying the received error string and the ErrorHandling
decorator applied by AddNewNegConnectionAttempt. -/
inductive AttemptOp
| pos
| neg (rec_err : String) (fn : Peer → Peer)

/-- Apply one attempt operation to a record, as the two store operations do
before writing the record back. -/
def applyAttemptOp (filterError : String → String) (p : Peer) : AttemptOp → Peer
| AttemptOp.pos => posUpdate p
| AttemptOp.neg e fn => fn (negUpdate filterError e p)

/-- Apply a sequence of attempt operations, oldest first. -/
def applyAttemptOps (filterError : String → String) (p : Peer) (ops : List AttemptOp) : Peer :=
  ops.foldl (applyAttemptOp filterError) p

/-- An ErrorHandling decorator is benign for the attempt fields when it leaves
PeerId, Attempts, Attempted and Succeed untouched (it may decorate anything
else, e.g. the stored error or the negative-attempt log). -/
def FnOk (fn : Peer → Peer) : Prop :=
  ∀ q : Peer, (fn q).PeerId = q.PeerId ∧ (fn q).Attempts = q.Attempts ∧
    (fn q).Attempted = q.Attempted ∧ (fn q).Succeed = q.Succeed

/-- An attempt operation is benign when its decorator (if any) is. -/
def OpOk : AttemptOp → Prop
| AttemptOp.pos => True
| AttemptOp.neg _ fn => FnOk fn

/-! ## Backend selection (peerstore.go lines 25-47) -/

/-- The two storage backends NewPeerStore can pick. -/
inductive DBBackend
| boltDB (path : String)
| memoryDB
deriving DecidableEq, Repr

/-- Modelled from the spec: the constant `default_db_path` is defined outside
these sources; the spec places the KV backend file at
`<output-path>/peerstore.db`.  Its concrete value is irrelevant below. -/
def default_db_path : String := "peerstore.db"

/-- The backend chosen by NewPeerStore's switch on the configuration string.
The source's cases are, in order: "bold", "memory", default; both the "bold"
case and the default build a Bolt backend at the supplied path, falling back
to the default path when the supplied one is empty. -/
def newPeerStoreBackend (dbtype path : String) : DBBackend :=
  if dbtype = "bold" then
    DBBackend.boltDB (if path.length ≤ 0 then default_db_path else path)
  else if dbtype = "memory" then
    DBBackend.memoryDB
  else
    DBBackend.boltDB (if path.length ≤ 0 then default_db_path else path)

/-! ## The discoveredPeers feed (crawler, gossipsub.go lines 434-526) -/

/-- minWaitTime (crawler): 5 seconds, held here in seconds. -/
def minWaitTime : Nat := 5

/-- The mutable state of the feed: the peer-id array, the Run-loop locals
`pointer` and `refreshFlag`, and the blacklist (a set of ids, modelled as its
characteristic function). -/
structure DPState where
  pArray : List String
  pointer : Nat
  refreshFlag : Bool
  blacklist : String → Bool

/-- Blacklist (gossipsub.go lines 518-520): store the id in the set. -/
def blacklistStore (bl : String → Bool) (peerID : String) : String → Bool :=
  fun k => if k = peerID then true else bl k

/-- isBlacklisted (gossipsub.go lines 522-526): membership test. -/
def isBlacklisted (bl : String → Bool) (peerID : String) : Bool :=
  bl peerID

/-- refreshPeerList (gossipsub.go lines 456-471): walk the peers of the
database (`db`, the ids GetFilecoinPeers returns) and append every one whose
LoadFilecoinPeer lookup succeeds (`ok`) to the existing array. -/
def refreshPeerList (db : List String) (ok : String → Bool) (s : DPState) : DPState :=
  { s with pArray := s.pArray ++ db.filter (fun pid => ok pid) }

/-- What one handling of a feed request produces. -/
inductive DPOut
| emit (pid : String)
| skipBlacklisted (pid : String)
| emptyWait (secs : Nat)
deriving DecidableEq, Repr

/-- One pass of the Run loop's nPeerReq case (gossipsub.go lines 480-501):
with a non-empty array, draw the entry at the cursor and advance; a
blacklisted entry re-issues the request and skips the refresh check
(`continue`); an emitted entry falls through to the refresh check
(refreshFlag set, or cursor at or past the end).  With an empty array, sleep
minWaitTime, re-issue the request, set the sticky refreshFlag, and fall
through to the refresh check, which then fires. -/
def dpStep (db : List String) (ok : String → Bool) (s : DPState) : DPOut × DPState :=
  if s.pArray.length ≠ 0 then
    let pid := s.pArray.getD s.pointer ""
    let s1 := { s with pointer := s.pointer + 1 }
    if isBlacklisted s.blacklist pid then
      (DPOut.skipBlacklisted pid, s1)
    else if s1.refreshFlag || decide (s1.pointer ≥ s1.pArray.length) then
      (DPOut.emit pid, refreshPeerList db ok s1)
    else
      (DPOut.emit pid, s1)
  else
    (DPOut.emptyWait minWaitTime, refreshPeerList db ok { s with refreshFlag := true })

/-- Run the feed for a number of request handlings, collecting the outputs. -/
def dpRun (db : List String) (ok : String → Bool) : DPState → Nat → List DPOut × DPState
| s, 0 => ([], s)
| s, n + 1 =>
    let r := dpStep db ok s
    let rest := dpRun db ok r.2 n
    (r.1 :: rest.1, rest.2)

/-! ## The worker iteration (crawler, gossipsub.go lines 325-391) -/

/-- The observable actions of one worker-loop iteration, in order. -/
inductive WAction
| sleepSecond
| reqNextPeer
| connectAttempt (pid : String)
| blacklistPeer (pid : String)
| storeFilecoinPeer (pid : String)
| connectionAttemptEvent (pid : String) (succeeded : Bool)
deriving DecidableEq, Repr

/-- One worker iteration after a peer id arrives on the feed channel
(gossipsub.go lines 333-383): with no multi-addresses, sleep and re-request;
otherwise dial, and on any Connect error blacklist the peer; on success store
the peer and every fetched neighbour.  The trailing request re-issue is
shared by both dial outcomes. -/
def crawlIteration (pid : String) (maddrs : List String) (connectErr : Option String)
    (neighbors : List String) : List WAction :=
  if maddrs.length = 0 then
    [WAction.sleepSecond, WAction.reqNextPeer]
  else
    match connectErr with
    | some _ =>
        [WAction.connectAttempt pid, WAction.blacklistPeer pid, WAction.reqNextPeer]
    | none =>
        WAction.connectAttempt pid :: WAction.storeFilecoinPeer pid ::
          (neighbors.map (fun q => WAction.storeFilecoinPeer q) ++ [WAction.reqNextPeer])

/-! ## Message ids (gossipsub.go lines 93-101)

MsgIDFunction hashes the message's Data with SHA-256 and encodes the digest
with Go's base64.URLEncoding (URL-safe alphabet, padded).  Both the hash and
the encoding are given executable definitions: SHA-256 after FIPS 180-4 over
byte lists, words as Nat reduced mod 2^32. -/

/-- Reduce to a 32-bit word. -/
def m32 (x : Nat) : Nat := x % 4294967296

/-- Right-rotation of a 32-bit word. -/
def rotr32 (n x : Nat) : Nat := m32 (x / 2 ^ n + x % 2 ^ n * 2 ^ (32 - n))

/-- Bitwise complement within 32 bits. -/
def compl32 (x : Nat) : Nat := x ^^^ 4294967295

/-- The SHA-256 choice function. -/
def shaCh (x y z : Nat) : Nat := (x &&& y) ^^^ (compl32 x &&& z)

/-- The SHA-256 majority function. -/
def shaMaj (x y z : Nat) : Nat := (x &&& y) ^^^ (x &&& z) ^^^ (y &&& z)

/-- The big Sigma-0 compression function. -/
def bSig0 (x : Nat) : Nat := rotr32 2 x ^^^ rotr32 13 x ^^^ rotr32 22 x

/-- The big Sigma-1 compression function. -/
def bSig1 (x : Nat) : Nat := rotr32 6 x ^^^ rotr32 11 x ^^^ rotr32 25 x

/-- The small sigma-0 schedule function. -/
def sSig0 (x : Nat) : Nat := rotr32 7 x ^^^ rotr32 18 x ^^^ x / 2 ^ 3

/-- The small sigma-1 schedule function. -/
def sSig1 (x : Nat) : Nat := rotr32 17 x ^^^ rotr32 19 x ^^^ x / 2 ^ 10

/-- The eight working variables of the compression function. -/
structure Hash8 where
  a : Nat
  b : Nat
  c : Nat
  d : Nat
  e : Nat
  f : Nat
  g : Nat
  h : Nat
deriving DecidableEq, Repr

/-- The SHA-256 round constants of FIPS 180-4, written in decimal. -/
def sha256K : List Nat :=
  [1116352408, 1899447441, 3049323471, 3921009573,
   961987163, 1508970993, 2453635748, 2870763221,
   3624381080, 310598401, 607225278, 1426881987,
   1925078388, 2162078206, 2614888103, 3248222580,
   3835390401, 4022224774, 264347078, 604807628,
   770255983, 1249150122, 1555081692, 1996064986,
   2554220882, 2821834349, 2952996808, 3210313671,
   3336571891, 3584528711, 113926993, 338241895,
   666307205, 773529912, 1294757372, 1396182291,
   1695183700, 1986661051, 2177026350, 2456956037,
   2730485921, 2820302411, 3259730800, 3345764771,
   3516065817, 3600352804, 4094571909, 275423344,
   430227734, 506948616, 659060556, 883997877,
   958139571, 1322822218, 1537002063, 1747873779,
   1955562222, 2024104815, 2227730452, 2361852424,
   2428436474, 2756734187, 3204031479, 3329325298]

/-- The SHA-256 initial hash value of FIPS 180-4, written in decimal. -/
def sha256InitH : Hash8 :=
  ⟨1779033703, 3144134277, 1013904242, 2773480762,
   1359893119, 2600822924, 528734635, 1541459225⟩

/-- Big-endian 32-bit words from bytes, four at a time. -/
def bytesToWords : List Nat → List Nat
| b0 :: b1 :: b2 :: b3 :: rest =>
    (b0 * 16777216 + b1 * 65536 + b2 * 256 + b3) :: bytesToWords rest
| _ => []

/-- Extend the 16-word block to the 64-word message schedule, one word per
step. -/
def extendSchedule : Nat → List Nat → List Nat
| 0, w => w
| n + 1, w =>
    let t := w.length
    let x := m32 (sSig1 (w.getD (t - 2) 0) + w.getD (t - 7) 0 +
      sSig0 (w.getD (t - 15) 0) + w.getD (t - 16) 0)
    extendSchedule n (w ++ [x])

/-- One compression round, consuming a (schedule word, round constant) pair. -/
def sha256Round (st : Hash8) (kw : Nat × Nat) : Hash8 :=
  let t1 := m32 (st.h + bSig1 st.e + shaCh st.e st.f st.g + kw.2 + kw.1)
  let t2 := m32 (bSig0 st.a + shaMaj st.a st.b st.c)
  { a := m32 (t1 + t2), b := st.a, c := st.b, d := st.c,
    e := m32 (st.d + t1), f := st.e, g := st.f, h := st.g }

/-- Compress one 64-byte block into the running hash. -/
def sha256Compress (hs : Hash8) (block : List Nat) : Hash8 :=
  let w := extendSchedule 48 (bytesToWords block)
  let st := (w.zip sha256K).foldl sha256Round hs
  { a := m32 (hs.a + st.a), b := m32 (hs.b + st.b), c := m32 (hs.c + st.c),
    d := m32 (hs.d + st.d), e := m32 (hs.e + st.e), f := m32 (hs.f + st.f),
    g := m32 (hs.g + st.g), h := m32 (hs.h + st.h) }

/-- Big-endian bytes of a 64-bit length value. -/
def lenBytes (v : Nat) : List Nat :=
  [v / 2 ^ 56 % 256, v / 2 ^ 48 % 256, v / 2 ^ 40 % 256, v / 2 ^ 32 % 256,
   v / 2 ^ 24 % 256, v / 2 ^ 16 % 256, v / 2 ^ 8 % 256, v % 256]

/-- FIPS 180-4 padding: a 0x80 byte, zeros to 56 mod 64, and the bit length
in 8 big-endian bytes. -/
def sha256Pad (msg : List Nat) : List Nat :=
  msg ++ 128 :: List.replicate ((119 - msg.length % 64) % 64) 0 ++ lenBytes (8 * msg.length)

/-- Split into 64-byte blocks: the fuelled worker, structurally recursive so
that the kernel can evaluate it; the fuel bounds the number of blocks. -/
def toBlocksAux : Nat → List Nat → List (List Nat)
| _, [] => []
| 0, _ :: _ => []
| fuel + 1, b :: rest => (b :: rest).take 64 :: toBlocksAux fuel ((b :: rest).drop 64)

/-- Split into 64-byte blocks.  The list length is always enough fuel, since
every step consumes at least one byte. -/
def toBlocks (l : List Nat) : List (List Nat) := toBlocksAux l.length l

/-- Big-endian bytes of a 32-bit word. -/
def wordBytes (w : Nat) : List Nat :=
  [w / 16777216 % 256, w / 65536 % 256, w / 256 % 256, w % 256]

/-- The SHA-256 digest of a byte list: 32 bytes. -/
def sha256 (msg : List Nat) : List Nat :=
  let hs := (toBlocks (sha256Pad msg)).foldl sha256Compress sha256InitH
  wordBytes hs.a ++ wordBytes hs.b ++ wordBytes hs.c ++ wordBytes hs.d ++
    wordBytes hs.e ++ wordBytes hs.f ++ wordBytes hs.g ++ wordBytes hs.h

/-- Go's base64.URLEncoding alphabet. -/
def base64URLAlphabet : List Char :=
  "ABCDEFGHIJKLMNOPQRSTUVWXYZabcdefghijklmnopqrstuvwxyz0123456789-_".toList

/-- Character of a 6-bit group. -/
def b64Char (i : Nat) : Char := base64URLAlphabet.getD i 'A'

/-- Go's base64.URLEncoding.EncodeToString over byte lists: three input bytes
become four characters; a final group of one or two bytes is padded with two
or one '=' characters.  Every input byte is consumed; the output length is
always 4 * ceil(n / 3). -/
def base64UrlEncode : List Nat → List Char
| [] => []
| [b0] => [b64Char (b0 / 4), b64Char (b0 % 4 * 16), '=', '=']
| [b0, b1] => [b64Char (b0 / 4), b64Char (b0 % 4 * 16 + b1 / 16), b64Char (b1 % 16 * 4), '=']
| b0 :: b1 :: b2 :: rest =>
    b64Char (b0 / 4) :: b64Char (b0 % 4 * 16 + b1 / 16) ::
      b64Char (b1 % 16 * 4 + b2 / 64) :: b64Char (b2 % 64) :: base64UrlEncode rest

/-- The pubsub message as far as MsgIDFunction is concerned: the protobuf
fields, of which only Data is read. -/
structure PubsubMessage where
  From : List Nat := []
  Data : List Nat := []
  Seqno : List Nat := []
  Topic : String := ""
  Signature : List Nat := []
  Key : List Nat := []
deriving DecidableEq, Repr

/-- MsgIDFunction (gossipsub.go lines 94-101): the URL-safe base64 encoding
of the SHA-256 digest of the message's Data field. -/
def MsgIDFunction (pmsg : PubsubMessage) : String :=
  String.mk (base64UrlEncode (sha256 pmsg.Data))

/-! ## Helper lemmas -/

/-- A string has length zero exactly when it is empty. -/
theorem str_len_le_zero_iff (t : String) : (t.length ≤ 0) ↔ t = "" := by
  constructor
  · intro h
    cases t with
    | mk data =>
      have h0 : data.length = 0 := Nat.le_zero.mp h
      have hd : data = [] := List.length_eq_zero.mp h0
      rw [hd]
  · intro h
    subst h
    decide

/-- Every 6-bit index maps into the URL-safe alphabet. -/
theorem b64Char_mem (i : Nat) : b64Char i ∈ base64URLAlphabet := by
  by_cases h : i < base64URLAlphabet.length
  · rw [b64Char, List.getD_eq_getElem _ _ h]
    exact List.getElem_mem h
  · rw [b64Char, List.getD_eq_default _ _ (Nat.le_of_not_lt h)]
    decide

/-- The encoding consumes every input byte: the output length is four
characters per three-byte group, padded groups included. -/
theorem base64UrlEncode_length (l : List Nat) :
    (base64UrlEncode l).length = 4 * ((l.length + 2) / 3) := by
  induction l using base64UrlEncode.induct <;>
    simp only [base64UrlEncode, List.length_cons, List.length_nil, List.length_append, *]
  all_goals omega

/-- Every character the encoder outputs is in the URL-safe alphabet or is the
padding character. -/
theorem base64UrlEncode_chars (l : List Nat) :
    ∀ c ∈ base64UrlEncode l, c ∈ base64URLAlphabet ∨ c = '=' := by
  induction l using base64UrlEncode.induct with
  | case1 => intro c hc; simp [base64UrlEncode] at hc
  | case2 b0 =>
      intro c hc
      simp only [base64UrlEncode, List.mem_cons, List.not_mem_nil, or_false] at hc
      rcases hc with rfl | rfl | rfl | rfl
      · exact Or.inl (b64Char_mem _)
      · exact Or.inl (b64Char_mem _)
      · exact Or.inr rfl
      · exact Or.inr rfl
  | case3 b0 b1 =>
      intro c hc
      simp only [base64UrlEncode, List.mem_cons, List.not_mem_nil, or_false] at hc
      rcases hc with rfl | rfl | rfl | rfl
      · exact Or.inl (b64Char_mem _)
      · exact Or.inl (b64Char_mem _)
      · exact Or.inl (b64Char_mem _)
      · exact Or.inr rfl
  | case4 b0 b1 b2 rest ih =>
      intro c hc
      simp only [base64UrlEncode, List.mem_cons] at hc
      rcases hc with rfl | rfl | rfl | rfl | hc
      · exact Or.inl (b64Char_mem _)
      · exact Or.inl (b64Char_mem _)
      · exact Or.inl (b64Char_mem _)
      · exact Or.inl (b64Char_mem _)
      · exact ih c hc

/-- The digest of any message is 32 bytes long. -/
theorem sha256_length (msg : List Nat) : (sha256 msg).length = 32 := by
  simp [sha256, wordBytes]

/-- SHA-256 of the empty message, against the FIPS 180-4 test vector. -/
theorem sha256_empty_vector :
    sha256 [] = [0xe3, 0xb0, 0xc4, 0x42, 0x98, 0xfc, 0x1c, 0x14, 0x9a, 0xfb, 0xf4, 0xc8,
      0x99, 0x6f, 0xb9, 0x24, 0x27, 0xae, 0x41, 0xe4, 0x64, 0x9b, 0x93, 0x4c, 0xa4, 0x95,
      0x99, 0x1b, 0x78, 0x52, 0xb8, 0x55] := by
  decide

/-- SHA-256 of "abc", against the FIPS 180-4 test vector. -/
theorem sha256_abc_vector :
    sha256 [0x61, 0x62, 0x63] = [0xba, 0x78, 0x16, 0xbf, 0x8f, 0x01, 0xcf, 0xea, 0x41, 0x41,
      0x40, 0xde, 0x5d, 0xae, 0x22, 0x23, 0xb0, 0x03, 0x61, 0xa3, 0x96, 0x17, 0x7a, 0x9c,
      0xb4, 0x10, 0xff, 0x61, 0xf2, 0x00, 0x15, 0xad] := by
  decide

/-- URL-safe base64 of "foo", against RFC 4648. -/
theorem base64_foo_vector : String.mk (base64UrlEncode [102, 111, 111]) = "Zm9v" := by
  decide

/-- URL-safe base64 of "fo": the padded case, against RFC 4648. -/
theorem base64_fo_vector : String.mk (base64UrlEncode [102, 111]) = "Zm8=" := by
  decide

/-- The attempt fields of the record AddNewNegConnectionAttempt builds before
the decorator runs. -/
theorem negUpdate_fields (filterError : String → String) (e : String) (p : Peer) :
    (negUpdate filterError e p).Attempts = p.Attempts + 1 ∧
    (negUpdate filterError e p).Attempted = true ∧
    (negUpdate filterError e p).Succeed = p.Succeed ∧
    (negUpdate filterError e p).Error = (if p.Attempted then p.Error else filterError e) := by
  cases hA : p.Attempted <;> simp [negUpdate, hA]

/-- The attempt fields of the record AddNewPosConnectionAttempt builds. -/
theorem posUpdate_fields (p : Peer) :
    (posUpdate p).Attempts = p.Attempts + 1 ∧
    (posUpdate p).Attempted = true ∧
    (posUpdate p).Succeed = true := by
  cases hA : p.Attempted <;> simp [posUpdate, AddPositiveConnAttempt, hA]

/-- One benign attempt operation adds exactly one to the counter and leaves
the record marked attempted. -/
theorem applyAttemptOp_fields (filterError : String → String) (p : Peer) (op : AttemptOp)
    (h : OpOk op) :
    (applyAttemptOp filterError p op).Attempts = p.Attempts + 1 ∧
    (applyAttemptOp filterError p op).Attempted = true := by
  cases op with
  | pos =>
      exact ⟨(posUpdate_fields p).1, (posUpdate_fields p).2.1⟩
  | neg e fn =>
      have hfn : FnOk fn := h
      constructor
      · rw [applyAttemptOp, (hfn (negUpdate filterError e p)).2.1]
        exact (negUpdate_fields filterError e p).1
      · rw [applyAttemptOp, (hfn (negUpdate filterError e p)).2.2.1]
        exact (negUpdate_fields filterError e p).2.1

/-- A benign attempt sequence adds its length to the counter. -/
theorem applyAttemptOps_attempts (filterError : String → String) (ops : List AttemptOp) :
    ∀ p : Peer, (∀ op ∈ ops, OpOk op) →
      (applyAttemptOps filterError p ops).Attempts = p.Attempts + ops.length := by
  induction ops with
  | nil => intro p _; simp [applyAttemptOps]
  | cons op rest ih =>
      intro p h
      have h1 : OpOk op := h op (List.mem_cons_self _ _)
      have h2 : ∀ o ∈ rest, OpOk o := fun o ho => h o (List.mem_cons_of_mem _ ho)
      have hr := ih (applyAttemptOp filterError p op) h2
      simp only [applyAttemptOps, List.foldl_cons, List.length_cons] at hr ⊢
      rw [hr, (applyAttemptOp_fields filterError p op h1).1]
      omega

/-- After a nonempty benign attempt sequence the record is marked attempted. -/
theorem applyAttemptOps_attempted (filterError : String → String) (ops : List AttemptOp) :
    ∀ p : Peer, ops ≠ [] → (∀ op ∈ ops, OpOk op) →
      (applyAttemptOps filterError p ops).Attempted = true := by
  induction ops with
  | nil => intro p hne _; exact absurd rfl hne
  | cons op rest ih =>
      intro p _ h
      cases rest with
      | nil =>
          simp only [applyAttemptOps, List.foldl_cons, List.foldl_nil]
          exact (applyAttemptOp_fields filterError p op (h op (List.mem_cons_self _ _))).2
      | cons o2 r2 =>
          simp only [applyAttemptOps, List.foldl_cons] at ih ⊢
          exact ih (applyAttemptOp filterError p op)
            (by simp) (fun o ho => h o (List.mem_cons_of_mem _ ho))

/-- One feed step never touches the blacklist. -/
theorem dpStep_blacklist (db : List String) (ok : String → Bool) (s : DPState) :
    (dpStep db ok s).2.blacklist = s.blacklist := by
  simp only [dpStep]
  split_ifs <;> rfl

/-- Whatever a feed step emits was not blacklisted in the state the step read. -/
theorem dpStep_emit_not_blacklisted (db : List String) (ok : String → Bool)
    (s : DPState) (pid : String) (s2 : DPState)
    (h : dpStep db ok s = (DPOut.emit pid, s2)) : s.blacklist pid = false := by
  simp only [dpStep] at h
  split_ifs at h with hlen hbl href
  · exact absurd (congrArg Prod.fst h) (by simp)
  · have hpid : s.pArray.getD s.pointer "" = pid := by
      have hfst := congrArg Prod.fst h
      simpa using hfst
    rw [← hpid]
    simpa [isBlacklisted] using hbl
  · have hpid : s.pArray.getD s.pointer "" = pid := by
      have hfst := congrArg Prod.fst h
      simpa using hfst
    rw [← hpid]
    simpa [isBlacklisted] using hbl
  · exact absurd (congrArg Prod.fst h) (by simp)

/-! ## Claim theorems -/

/-- C1, counterexample: in the worker iteration's failure branch the code
blacklists on a transient error kind (dial-timeout) and records no
ConnectionAttemptEvent at all, contradicting the claim that transient errors
keep the peer in rotation with a negative attempt recorded. -/
theorem claim_C1_counterexample :
    WAction.blacklistPeer "P3" ∈ crawlIteration "P3" ["addr1"] (some "dial-timeout") [] ∧
    (∀ b, WAction.connectionAttemptEvent "P3" b ∉
        crawlIteration "P3" ["addr1"] (some "dial-timeout") []) := by
  decide

/-- C1 amended: in every worker iteration whose Connect fails, whatever the
error, the peer is blacklisted via the feed, and no ConnectionAttemptEvent is
ever recorded by the iteration, on any path. -/
theorem claim_C1_amended (pid : String) (maddrs : List String) (e : String)
    (neighbors : List String) (h : maddrs ≠ []) :
    WAction.blacklistPeer pid ∈ crawlIteration pid maddrs (some e) neighbors ∧
    (∀ q b r, WAction.connectionAttemptEvent q b ∉ crawlIteration pid maddrs r neighbors) := by
  have hlen : ¬ maddrs.length = 0 := by
    simpa [List.length_eq_zero] using h
  constructor
  · simp [crawlIteration, hlen]
  · intro q b r
    cases r with
    | none =>
        simp [crawlIteration, hlen]
    | some e2 =>
        by_cases hl : maddrs.length = 0 <;> simp [crawlIteration, hl]

/-- C1 witness: the amended theorem at a concrete failing iteration. -/
theorem claim_C1_witness :
    WAction.blacklistPeer "P" ∈ crawlIteration "P" ["a"] (some "reset-by-peer") [] :=
  (claim_C1_amended "P" ["a"] "reset-by-peer" [] (by decide)).1

/-- C2, counterexample: with array ["A"], cursor 0, nothing blacklisted and
the store holding the one peer "A", a Request emits "A", the cursor passes
the end, and the refresh appends instead of rebuilding: the array becomes
["A", "A"], which has duplicate entries, contrary to the claim. -/
theorem claim_C2_counterexample :
    (dpStep ["A"] (fun _ => true) ⟨["A"], 0, false, fun _ => false⟩).1 = DPOut.emit "A" ∧
    (dpStep ["A"] (fun _ => true) ⟨["A"], 0, false, fun _ => false⟩).2.pArray = ["A", "A"] ∧
    ¬ (dpStep ["A"] (fun _ => true) ⟨["A"], 0, false, fun _ => false⟩).2.pArray.Nodup := by
  decide

/-- C2 amended: a refresh appends to the array every peer currently loadable
from the store — already-present and blacklisted ids included — rather than
rebuilding it; a Request on an empty array waits minWaitTime (5 seconds, so
at least 5) and refreshes; a Request that emits refreshes exactly when the
sticky refresh flag is set or the advanced cursor is at or past the end. -/
theorem claim_C2_amended (db : List String) (ok : String → Bool) (s : DPState) :
    ((refreshPeerList db ok s).pArray = s.pArray ++ db.filter (fun pid => ok pid)) ∧
    (∀ pid, pid ∈ db → ok pid = true → pid ∈ (refreshPeerList db ok s).pArray) ∧
    (s.pArray = [] →
       dpStep db ok s =
         (DPOut.emptyWait minWaitTime, refreshPeerList db ok { s with refreshFlag := true }) ∧
       5 ≤ minWaitTime) ∧
    (∀ pid, s.pArray ≠ [] → s.pArray.getD s.pointer "" = pid →
       s.blacklist pid = false →
       (dpStep db ok s).1 = DPOut.emit pid ∧
       (dpStep db ok s).2.pArray =
         (if s.refreshFlag || decide (s.pointer + 1 ≥ s.pArray.length)
          then s.pArray ++ db.filter (fun pid2 => ok pid2)
          else s.pArray)) := by
  refine ⟨rfl, ?_, ?_, ?_⟩
  · intro pid hdb hok
    rw [refreshPeerList]
    exact List.mem_append_right _ (List.mem_filter.mpr ⟨hdb, by simp [hok]⟩)
  · intro h
    constructor
    · simp only [dpStep, h]
      simp
    · decide
  · intro pid hne hget hbl
    have hget2 : s.pArray[s.pointer]?.getD "" = pid := by
      simpa [List.getD] using hget
    by_cases hrf : (s.refreshFlag = true ∨ s.pArray.length ≤ s.pointer + 1)
    · constructor
      · simp [dpStep, isBlacklisted, hne, hget2, hbl, hrf]
      · simp [dpStep, isBlacklisted, hne, hget2, hbl, hrf, refreshPeerList]
    · constructor
      · simp [dpStep, isBlacklisted, hne, hget2, hbl, hrf]
      · simp [dpStep, isBlacklisted, hne, hget2, hbl, hrf]

/-- C2 witness: the amended theorem's empty-array branch at a concrete
state. -/
theorem claim_C2_witness :
    dpStep ["A"] (fun _ => true) ⟨[], 0, false, fun _ => false⟩ =
      (DPOut.emptyWait minWaitTime,
       refreshPeerList ["A"] (fun _ => true) ⟨[], 0, true, fun _ => false⟩) ∧
    5 ≤ minWaitTime :=
  (claim_C2_amended ["A"] (fun _ => true) ⟨[], 0, false, fun _ => false⟩).2.2.1 rfl

/-- C3, counterexample: a second failed attempt on a peer already attempted
with stored error dial-timeout leaves the stored error at dial-timeout, not
at the classification of the latest error string. -/
theorem claim_C3_counterexample :
    psLoad (AddNewNegConnectionAttempt (fun e => e) (fun q => q)
        [("P3", { PeerId := "P3", Attempts := 1, Attempted := true, Error := "dial-timeout" })]
        "P3" "connection-refused").2 "P3"
      = some { PeerId := "P3", Attempts := 2, Attempted := true, Error := "dial-timeout" } ∧
    ("dial-timeout" : String) ≠ (fun e => e) "connection-refused" := by
  decide

/-- C3 amended: for a peer present in the store, a failed attempt increments
the counter by one and sets attempted, but the classified error is stored
only when the peer had not yet been attempted; later failed attempts keep
the earlier stored error (all before the ErrorHandling decorator runs). -/
theorem claim_C3_amended (filterError : String → String) (fn : Peer → Peer)
    (s : PStore) (id rec_err : String) (p : Peer)
    (h : psLoad s id = some p) :
    AddNewNegConnectionAttempt filterError fn s id rec_err =
      (Except.ok (), psStore s (fn (negUpdate filterError rec_err p)).PeerId
        (fn (negUpdate filterError rec_err p))) ∧
    (negUpdate filterError rec_err p).Attempts = p.Attempts + 1 ∧
    (negUpdate filterError rec_err p).Attempted = true ∧
    (negUpdate filterError rec_err p).Error =
      (if p.Attempted then p.Error else filterError rec_err) := by
  refine ⟨?_, (negUpdate_fields filterError rec_err p).1,
    (negUpdate_fields filterError rec_err p).2.1,
    (negUpdate_fields filterError rec_err p).2.2.2⟩
  rw [AddNewNegConnectionAttempt, h]

/-- C3 witness: the amended theorem at a concrete store and first attempt. -/
theorem claim_C3_witness :
    (negUpdate (fun e => e) "reset-by-peer" { PeerId := "P" }).Error =
      (if ({ PeerId := "P" } : Peer).Attempted
       then ({ PeerId := "P" } : Peer).Error
       else (fun e => e) "reset-by-peer") :=
  (claim_C3_amended (fun e => e) (fun q => q) [("P", { PeerId := "P" })] "P" "reset-by-peer"
    { PeerId := "P" } (by decide)).2.2.2

/-- C4: once a peer id is blacklisted, no run of the feed, of any length,
ever emits it: emission is guarded by the blacklist check, and feed steps
never shrink the blacklist. -/
theorem claim_C4 (db : List String) (ok : String → Bool) (s : DPState) (p : String)
    (h : s.blacklist p = true) (n : Nat) :
    DPOut.emit p ∉ (dpRun db ok s n).1 := by
  induction n generalizing s with
  | zero =>
      simp [dpRun]
  | succ n ih =>
      simp only [dpRun]
      intro hmem
      rcases List.mem_cons.mp hmem with h1 | h1
      · have heq : dpStep db ok s = (DPOut.emit p, (dpStep db ok s).2) := by
          rw [h1]
        have hf := dpStep_emit_not_blacklisted db ok s p (dpStep db ok s).2 heq
        rw [h] at hf
        exact absurd hf (by simp)
      · exact ih ((dpStep db ok s).2) (by rw [dpStep_blacklist]; exact h) h1

/-- C4 witness: a concrete three-step run starting after Blacklist("B")
returned never emits "B". -/
theorem claim_C4_witness :
    DPOut.emit "B" ∉
      (dpRun ["A", "B"] (fun _ => true)
        ⟨["B", "A"], 0, false, blacklistStore (fun _ => false) "B"⟩ 3).1 :=
  claim_C4 ["A", "B"] (fun _ => true)
    ⟨["B", "A"], 0, false, blacklistStore (fun _ => false) "B"⟩ "B" (by decide) 3

/-- C5: the message id is exactly the URL-safe base64 encoding of the
SHA-256 digest of the Data field — a total function of Data alone, so equal
Data gives equal ids; the output is the full padded encoding of the 32-byte
digest, 44 characters over the URL-safe alphabet plus padding. -/
theorem claim_C5 (m1 m2 : PubsubMessage) (h : m1.Data = m2.Data) :
    MsgIDFunction m1 = String.mk (base64UrlEncode (sha256 m1.Data)) ∧
    MsgIDFunction m1 = MsgIDFunction m2 ∧
    (MsgIDFunction m1).length = 44 ∧
    (∀ c ∈ (MsgIDFunction m1).data, c ∈ base64URLAlphabet ∨ c = '=') := by
  refine ⟨rfl, by simp [MsgIDFunction, h], ?_, ?_⟩
  · show (base64UrlEncode (sha256 m1.Data)).length = 44
    rw [base64UrlEncode_length, sha256_length]
  · intro c hc
    exact base64UrlEncode_chars (sha256 m1.Data) c hc

/-- C5 witness: the theorem at two concrete messages that differ in sender
and topic but share Data. -/
theorem claim_C5_witness :
    MsgIDFunction { Data := [0] } =
      MsgIDFunction { From := [9], Data := [0], Topic := "T" } :=
  (claim_C5 { Data := [0] } { From := [9], Data := [0], Topic := "T" } rfl).2.1

/-- C6: over any sequence of positive and negative attempt operations whose
decorators leave the attempt fields alone, the attempts counter grows by
exactly one per operation (hence is monotone non-decreasing along the
sequence), and succeed implies attempted after every nonempty prefix. -/
theorem claim_C6 (filterError : String → String) (p : Peer) (ops : List AttemptOp)
    (h : ∀ op ∈ ops, OpOk op) :
    (applyAttemptOps filterError p ops).Attempts = p.Attempts + ops.length ∧
    (∀ op, OpOk op → (applyAttemptOp filterError p op).Attempts = p.Attempts + 1) ∧
    (∀ n m, n ≤ m →
      (applyAttemptOps filterError p (ops.take n)).Attempts ≤
        (applyAttemptOps filterError p (ops.take m)).Attempts) ∧
    (∀ n, n ≠ 0 → n ≤ ops.length →
      ((applyAttemptOps filterError p (ops.take n)).Succeed = true →
        (applyAttemptOps filterError p (ops.take n)).Attempted = true)) := by
  have htake : ∀ k, ∀ op ∈ ops.take k, OpOk op :=
    fun k op hop => h op (List.take_subset k ops hop)
  refine ⟨applyAttemptOps_attempts filterError ops p h, ?_, ?_, ?_⟩
  · intro op hop
    exact (applyAttemptOp_fields filterError p op hop).1
  · intro n m hnm
    rw [applyAttemptOps_attempts filterError (ops.take n) p (htake n),
      applyAttemptOps_attempts filterError (ops.take m) p (htake m),
      List.length_take, List.length_take]
    omega
  · intro n hn0 hnlen _
    have hne : ops.take n ≠ [] := by
      rw [Ne, List.take_eq_nil_iff]
      rintro (rfl | rfl)
      · exact hn0 rfl
      · simp at hnlen
        exact hn0 hnlen
    exact applyAttemptOps_attempted filterError (ops.take n) p hne (htake n)

/-- C6 witness: the theorem at a concrete record and a concrete
positive-then-negative sequence with the identity decorator. -/
theorem claim_C6_witness :
    (applyAttemptOps (fun e => e) ({} : Peer)
        [AttemptOp.pos, AttemptOp.neg "x" (fun q => q)]).Attempts
      = ({} : Peer).Attempts + 2 :=
  (claim_C6 (fun e => e) {} [AttemptOp.pos, AttemptOp.neg "x" (fun q => q)]
    (by
      intro op hop
      rcases List.mem_cons.mp hop with rfl | hop2
      · trivial
      · rcases List.mem_cons.mp hop2 with rfl | hop3
        · exact fun q => ⟨rfl, rfl, rfl, rfl⟩
        · simp at hop3)).1

/-- C7: NewPeerStore picks the in-memory backend exactly for the string
"memory"; "bolt" and every other unrecognised string (and the source's own
"bold" case) give the Bolt file backend, at the supplied path when it is
nonempty and at the default path when it is empty. -/
theorem claim_C7 (dbtype path : String) (h : dbtype ≠ "memory") :
    newPeerStoreBackend "memory" path = DBBackend.memoryDB ∧
    newPeerStoreBackend dbtype path =
      DBBackend.boltDB (if path = "" then default_db_path else path) := by
  have hlen : (path.length ≤ 0) = (path = "") := propext (str_len_le_zero_iff path)
  constructor
  · rw [newPeerStoreBackend, if_neg (by decide), if_pos rfl]
  · rw [newPeerStoreBackend]
    by_cases hb : dbtype = "bold"
    · rw [if_pos hb]
      simp only [hlen]
    · rw [if_neg hb, if_neg h]
      simp only [hlen]

/-- C7 witness: the theorem at the configuration string "bolt" with an empty
path. -/
theorem claim_C7_witness :
    newPeerStoreBackend "memory" "" = DBBackend.memoryDB ∧
    newPeerStoreBackend "bolt" "" =
      DBBackend.boltDB (if "" = "" then default_db_path else "") :=
  claim_C7 "bolt" "" (by decide)

/-- C8: a worker iteration whose loaded peer has no multi-addresses consists
of exactly a short sleep and a fresh feed request; Connect is invoked for no
peer id on that path. -/
theorem claim_C8 (pid : String) (connectErr : Option String) (neighbors : List String)
    (maddrs : List String) (h : maddrs.length = 0) :
    crawlIteration pid maddrs connectErr neighbors =
      [WAction.sleepSecond, WAction.reqNextPeer] ∧
    (∀ q, WAction.connectAttempt q ∉ crawlIteration pid maddrs connectErr neighbors) := by
  constructor
  · simp [crawlIteration, h]
  · intro q
    simp [crawlIteration, h]

/-- C8 witness: the theorem at a concrete address-less iteration. -/
theorem claim_C8_witness :
    crawlIteration "P" [] (some "dial-timeout") [] =
      [WAction.sleepSecond, WAction.reqNextPeer] :=
  (claim_C8 "P" (some "dial-timeout") [] [] rfl).1

/-- C9: Blacklist is idempotent — storing the same id twice leaves the
blacklist set exactly as one store does, and isBlacklisted answers the same
in both cases. -/
theorem claim_C9 (bl : String → Bool) (p : String) :
    blacklistStore (blacklistStore bl p) p = blacklistStore bl p ∧
    isBlacklisted (blacklistStore (blacklistStore bl p) p) p
      = isBlacklisted (blacklistStore bl p) p := by
  constructor
  · funext k
    by_cases hk : k = p <;> simp [blacklistStore, hk]
  · simp [isBlacklisted, blacklistStore]

/-- C10: every per-peer event operation on an id absent from the store
returns its not-found error and hands back the store unchanged — no record
is created or modified on that path, whatever the external Peer-method
parameters do. -/
theorem claim_C10 (s : PStore) (pid : String)
    (connFn : String → Peer → Peer) (discFn : Peer → Peer)
    (caFn : Bool → String → Peer → Peer) (msgFn : String → Peer → Peer)
    (filterError : String → String) (fn : Peer → Peer)
    (direction topicName conErr rec_err : String) (success succeed : Bool)
    (h : psLoad s pid = none) :
    GetPeerData s pid = Except.error ("could not find peer in peerstore: " ++ pid) ∧
    ConnectionEvent connFn s pid direction =
      (Except.error ("could not add connection event, peer is not in the list: " ++ pid), s) ∧
    DisconnectionEvent discFn s pid =
      (Except.error ("could not add disconnection event, peer is not in the list: " ++ pid), s) ∧
    MetadataEvent s pid success =
      (Except.error ("could not add metadata event, peer is not in the list: " ++ pid), s) ∧
    ConnectionAttemptEvent caFn s pid succeed conErr =
      (Except.error ("could not add connection attempt, peer is not in the list: " ++ pid), s) ∧
    MessageEvent msgFn s pid topicName =
      (Except.error ("could not add message event, peer is not in the list: " ++ pid), s) ∧
    AddNewNegConnectionAttempt filterError fn s pid rec_err =
      (Except.error ("Not peer found with that ID " ++ pid), s) ∧
    AddNewPosConnectionAttempt s pid =
      (Except.error ("Not peer found with that ID " ++ pid), s) := by
  refine ⟨?_, ?_, ?_, ?_, ?_, ?_, ?_, ?_⟩ <;>
    simp [GetPeerData, ConnectionEvent, DisconnectionEvent, MetadataEvent,
      ConnectionAttemptEvent, MessageEvent, AddNewNegConnectionAttempt,
      AddNewPosConnectionAttempt, h]

/-- C10 witness: the connection-event conjunct at a store that does not hold
the requested peer. -/
theorem claim_C10_witness :
    ConnectionEvent (fun _ q => q) [("Q", {})] "P" "inbound" =
      (Except.error ("could not add connection event, peer is not in the list: " ++ "P"),
       [("Q", {})]) :=
  (claim_C10 [("Q", {})] "P" (fun _ q => q) (fun q => q) (fun _ _ q => q) (fun _ q => q)
    (fun e => e) (fun q => q) "inbound" "T" "errA" "errB" true false (by decide)).2.1
